import Mathlib

/-!
Verification development for the C boundary layer of the automerge
collaborative-document engine (`automerge-c/src/lib.rs`).

The boundary layer is embedded shallowly:

* C pointers that may be `NULL` become `Option`; the pointee of a document
  pointer is an `AMdoc` value, so a boundary call that receives a document
  pointer is a function `Option AMdoc → ... → CallResult (Option AMdoc × AMresult)`
  returning the updated pointee together with the `AMresult` it allocates.
* A Rust panic (`unimplemented!()`) is represented by `CallResult.fatal`,
  since a panic that unwinds out of an `extern "C"` function aborts the
  process; every non-panicking path is `CallResult.ok`.
* C strings become byte lists (`CString`); the `to_str` helper of the source
  (`CStr::to_string_lossy`) is embedded as a total UTF-8 lossy decoder.
* 64-bit floats are represented by their 64-bit patterns (`F64Bits`): the
  boundary only stores and returns them, it never computes with them.
* The engine behind the boundary (`doc.rs`, `result.rs` and the automerge
  crate itself) is not part of the shown source; the definitions marked
  `Modelled from the spec:` reconstruct exactly the behaviour the
  specification ascribes to it.
-/

/-- A C string is the byte sequence up to (and excluding) its NUL terminator. -/
abbrev CString := List Nat

/-- An object identifier; the engine's `ObjId`. The root object is `0`. -/
abbrev ObjId := Nat

/-- The distinguished identifier of the document root (`am::ObjId::Root`). -/
def ObjId.root : ObjId := 0

/-- An actor identifier is a byte sequence (spec: a fixed-format byte
identifier, commonly hex-encoded). -/
abbrev ActorId := List Nat

/-- The 64-bit pattern of an `f64` value. -/
abbrev F64Bits := Nat

/-- The U+FFFD replacement character emitted by lossy UTF-8 decoding. -/
def repChar : Char := Char.ofNat 0xFFFD

/-- Is `b` a UTF-8 continuation byte (`0x80..=0xBF`)? -/
def isCont (b : Nat) : Bool := 0x80 ≤ b && b ≤ 0xBF

/-- One step of lossy UTF-8 decoding: the character produced for the first
maximal subpart of the input and the number of bytes (≥ 1) it consumed,
following the policy of Rust's `String::from_utf8_lossy` (each maximal
subpart of an ill-formed sequence yields one U+FFFD). -/
def utf8Step : List Nat → Char × Nat
  | [] => (repChar, 1)
  | b :: rest =>
    if b < 0x80 then (Char.ofNat b, 1)
    else if 0xC2 ≤ b && b ≤ 0xDF then
      match rest with
      | b1 :: _ =>
        if isCont b1 then (Char.ofNat ((b - 0xC0) * 64 + (b1 - 0x80)), 2)
        else (repChar, 1)
      | [] => (repChar, 1)
    else if 0xE0 ≤ b && b ≤ 0xEF then
      let lo1 := if b = 0xE0 then 0xA0 else 0x80
      let hi1 := if b = 0xED then 0x9F else 0xBF
      match rest with
      | b1 :: rest1 =>
        if lo1 ≤ b1 && b1 ≤ hi1 then
          match rest1 with
          | b2 :: _ =>
            if isCont b2 then
              (Char.ofNat ((b - 0xE0) * 4096 + (b1 - 0x80) * 64 + (b2 - 0x80)), 3)
            else (repChar, 2)
          | [] => (repChar, 2)
        else (repChar, 1)
      | [] => (repChar, 1)
    else if 0xF0 ≤ b && b ≤ 0xF4 then
      let lo1 := if b = 0xF0 then 0x90 else 0x80
      let hi1 := if b = 0xF4 then 0x8F else 0xBF
      match rest with
      | b1 :: rest1 =>
        if lo1 ≤ b1 && b1 ≤ hi1 then
          match rest1 with
          | b2 :: rest2 =>
            if isCont b2 then
              match rest2 with
              | b3 :: _ =>
                if isCont b3 then
                  (Char.ofNat
                    ((b - 0xF0) * 262144 + (b1 - 0x80) * 4096 +
                      (b2 - 0x80) * 64 + (b3 - 0x80)), 4)
                else (repChar, 3)
              | [] => (repChar, 3)
            else (repChar, 2)
          | [] => (repChar, 2)
        else (repChar, 1)
      | [] => (repChar, 1)
    else (repChar, 1)

/-- Fuelled driver for lossy UTF-8 decoding; every step consumes at least one
byte, so fuel equal to the input length decodes the whole input. -/
def utf8LossyAux : Nat → List Nat → List Char
  | 0, _ => []
  | _, [] => []
  | fuel + 1, l => (utf8Step l).1 :: utf8LossyAux fuel (l.drop (utf8Step l).2)

/-- The `to_str` helper of the boundary layer: `CStr::to_string_lossy`,
a total conversion of arbitrary bytes to a string, replacing each maximal
ill-formed subpart with U+FFFD. -/
def to_str (c : CString) : String := ⟨utf8LossyAux c.length c⟩

/-- The numeric value of one hexadecimal digit, if `c` is one. -/
def hexVal? (c : Char) : Option Nat :=
  if '0' ≤ c && c ≤ '9' then some (c.toNat - 48)
  else if 'a' ≤ c && c ≤ 'f' then some (c.toNat - 87)
  else if 'A' ≤ c && c ≤ 'F' then some (c.toNat - 55)
  else none

/-- Decode a hexadecimal character sequence to bytes: the sequence must have
even length and consist of hex digits only. -/
def hexDecode : List Char → Option (List Nat)
  | [] => some []
  | [_] => none
  | c1 :: c2 :: rest => do
    let h ← hexVal? c1
    let l ← hexVal? c2
    let r ← hexDecode rest
    pure ((h * 16 + l) :: r)

/-- Modelled from the spec: parsing of an actor identifier (`ActorId::try_from`
of the automerge crate, not in the shown source). The spec calls an actor
identifier "a fixed-format byte identifier, commonly hex-encoded"; a value
parses iff it is a (possibly empty) even-length string of hex digits. -/
def parseActorId (s : String) : Option ActorId := hexDecode s.data

/-- The engine's object kinds (`am::ObjType`). -/
inductive ObjType where
  | Map
  | List
  | Text
deriving DecidableEq

/-- The boundary object-kind enumeration `AmObjType` of the source
(`#[repr(u8)]`, `List = 1` with `Map` and `Text` following implicitly). -/
inductive AmObjType where
  | List
  | Map
  | Text
deriving DecidableEq

/-- The `#[repr(u8)]` discriminant of an `AmObjType` tag: `List = 1` is
explicit in the source and `Map`, `Text` continue from it. -/
def AmObjType.tag : AmObjType → Nat
  | .List => 1
  | .Map => 2
  | .Text => 3

/-- The `From<AmObjType> for am::ObjType` conversion of the source. -/
def AmObjType.toObjType : AmObjType → ObjType
  | .Map => ObjType.Map
  | .List => ObjType.List
  | .Text => ObjType.Text

/-- Modelled from the spec: the Value sum type (§3) of the engine. Floats
carry their 64-bit pattern; an object-typed value is a reference, never an
inlined container. -/
inductive AmValue where
  | Null
  | Bool (b : Bool)
  | Int (i : Int)
  | Uint (u : Nat)
  | F64 (bits : F64Bits)
  | Str (s : String)
  | Bytes (bs : List Nat)
  | Counter (i : Int)
  | Timestamp (i : Int)
  | ObjRef (o : ObjId)
deriving DecidableEq

/-- Modelled from the spec: the contents of one container object of the
document tree (a key-value map, a list, or a text sequence). -/
inductive ObjData where
  | map (entries : List (String × AmValue))
  | list (elems : List AmValue)
  | text (elems : List AmValue)
deriving DecidableEq

/-- The empty container of a given kind. -/
def ObjData.empty : ObjType → ObjData
  | ObjType.Map => .map []
  | ObjType.List => .list []
  | ObjType.Text => .text []

/-- Modelled from the spec: the document state owned by a Document Handle —
an actor identifier plus the tree of container objects, addressed by object
identifier (root = 0); `nextId` generates fresh object identifiers. -/
structure AMdoc where
  actor : ActorId
  objs : List (ObjId × ObjData)
  nextId : ObjId
deriving DecidableEq

/-- Look an object up in the object table (first matching entry). -/
def lookupObj : List (ObjId × ObjData) → ObjId → Option ObjData
  | [], _ => none
  | (o', dat) :: rest, o => if o' = o then some dat else lookupObj rest o

/-- Replace the contents of object `o` in the object table. -/
def setObjEntries : List (ObjId × ObjData) → ObjId → ObjData → List (ObjId × ObjData)
  | [], _, _ => []
  | (o', dat') :: rest, o, dat =>
    if o' = o then (o', dat) :: setObjEntries rest o dat
    else (o', dat') :: setObjEntries rest o dat

/-- The contents of object `o` of document `d`, if `o` names an object. -/
def AMdoc.getObj (d : AMdoc) (o : ObjId) : Option ObjData := lookupObj d.objs o

/-- Document `d` with the contents of object `o` replaced. -/
def AMdoc.setObj (d : AMdoc) (o : ObjId) (dat : ObjData) : AMdoc :=
  { d with objs := setObjEntries d.objs o dat }

/-- Set key `k` to `v` in a map's entry list: overwrite the existing entry
for `k`, or append a fresh entry. -/
def mapSet : List (String × AmValue) → String → AmValue → List (String × AmValue)
  | [], k, v => [(k, v)]
  | (k', v') :: rest, k, v =>
    if k' = k then (k, v) :: rest else (k', v') :: mapSet rest k v

/-- The value at key `k` of a map's entry list. -/
def mapFind : List (String × AmValue) → String → Option AmValue
  | [], _ => none
  | (k', v') :: rest, k => if k' = k then some v' else mapFind rest k

/-- List `l` with `v` inserted before position `i`. -/
def insertAt (l : List AmValue) (i : Nat) (v : AmValue) : List AmValue :=
  l.take i ++ v :: l.drop i

/-- Modelled from the spec: the engine's `put` on a map target (§4.2
put_scalar) — sets `k` to `v` in the map named by `o`; fails if `o` does not
name a map. On failure the document is unmodified (§5: fails atomically). -/
def AMdoc.mapPut (d : AMdoc) (o : ObjId) (k : String) (v : AmValue) :
    Except String AMdoc :=
  match d.getObj o with
  | some (ObjData.map es) => .ok (d.setObj o (.map (mapSet es k v)))
  | some _ => .error "obj id is not a map"
  | none => .error "obj id not found"

/-- Modelled from the spec: the engine's read of key `k` of the map named by
`o` (used to state round-trip properties; the boundary exposes no reader). -/
def AMdoc.mapGet (d : AMdoc) (o : ObjId) (k : String) : Option AmValue :=
  match d.getObj o with
  | some (ObjData.map es) => mapFind es k
  | _ => none

/-- Modelled from the spec: the engine's `put` on a list target (§4.2) —
overwrites position `i`, which must satisfy `i < length`; the list length is
unchanged. Fails, leaving the document unmodified, on a non-list target or an
out-of-range index. -/
def AMdoc.seqPut (d : AMdoc) (o : ObjId) (i : Nat) (v : AmValue) :
    Except String AMdoc :=
  match d.getObj o with
  | some (ObjData.list l) =>
    if i < l.length then .ok (d.setObj o (.list (l.set i v)))
    else .error "index out of bounds"
  | some _ => .error "obj id is not a list"
  | none => .error "obj id not found"

/-- Modelled from the spec: the engine's `insert` on a list target (§4.2) —
inserts before position `i`, which must satisfy `i ≤ length`; the list grows
by one. Fails, leaving the document unmodified, otherwise. -/
def AMdoc.seqInsert (d : AMdoc) (o : ObjId) (i : Nat) (v : AmValue) :
    Except String AMdoc :=
  match d.getObj o with
  | some (ObjData.list l) =>
    if i ≤ l.length then .ok (d.setObj o (.list (insertAt l i v)))
    else .error "index out of bounds"
  | some _ => .error "obj id is not a list"
  | none => .error "obj id not found"

/-- Modelled from the spec: the engine's `put_object` on a map target —
creates a fresh, empty container of kind `t`, links it under key `k`, and
returns its fresh object identifier (§4.2). -/
def AMdoc.mapPutObject (d : AMdoc) (o : ObjId) (k : String) (t : ObjType) :
    Except String (AMdoc × ObjId) :=
  match d.getObj o with
  | some (ObjData.map es) =>
    let newId := d.nextId
    .ok ({ d with
            objs := setObjEntries d.objs o (.map (mapSet es k (.ObjRef newId)))
              ++ [(newId, ObjData.empty t)],
            nextId := newId + 1 }, newId)
  | some _ => .error "obj id is not a map"
  | none => .error "obj id not found"

/-- Modelled from the spec: the engine's `put_object` on a list target —
creates a fresh, empty container of kind `t`, overwrites position `i`
(`i < length`) with a reference to it, and returns its identifier. -/
def AMdoc.seqPutObject (d : AMdoc) (o : ObjId) (i : Nat) (t : ObjType) :
    Except String (AMdoc × ObjId) :=
  match d.getObj o with
  | some (ObjData.list l) =>
    if i < l.length then
      let newId := d.nextId
      .ok ({ d with
              objs := setObjEntries d.objs o (.list (l.set i (.ObjRef newId)))
                ++ [(newId, ObjData.empty t)],
              nextId := newId + 1 }, newId)
    else .error "index out of bounds"
  | some _ => .error "obj id is not a list"
  | none => .error "obj id not found"

/-- Modelled from the spec: the engine's `insert_object` on a list target —
creates a fresh, empty container of kind `t`, inserts a reference to it
before position `i` (`i ≤ length`), and returns its identifier. -/
def AMdoc.seqInsertObject (d : AMdoc) (o : ObjId) (i : Nat) (t : ObjType) :
    Except String (AMdoc × ObjId) :=
  match d.getObj o with
  | some (ObjData.list l) =>
    if i ≤ l.length then
      let newId := d.nextId
      .ok ({ d with
              objs := setObjEntries d.objs o (.list (insertAt l i (.ObjRef newId)))
                ++ [(newId, ObjData.empty t)],
              nextId := newId + 1 }, newId)
    else .error "index out of bounds"
  | some _ => .error "obj id is not a list"
  | none => .error "obj id not found"

/-- An object's unique identifier at the boundary: the `AMobj` struct of the
source, wrapping an engine `ObjId`. -/
structure AMobj where
  id : ObjId
deriving DecidableEq

/-- Modelled from the spec together with the match arms visible in the
source's `AMresultStatus`: the `AMresult` sum type of the missing
`result.rs` — the Outcome of §3: success with no value (`Ok`), failure with a
message, an object reference, a value batch, or a change batch. -/
inductive AMresult where
  | Ok
  | Error (msg : String)
  | ObjId (obj : AMobj)
  | Values (vals : List AmValue)
  | Changes (chs : List (List Nat))
deriving DecidableEq

/-- The `AMresult::err` constructor used throughout the source. -/
def AMresult.err (msg : String) : AMresult := .Error msg

/-- The `AmStatus` enumeration of the source (`#[repr(u8)]`, from
`ChangesOk = 1`). -/
inductive AmStatus where
  | ChangesOk
  | CommandOk
  | Error
  | InvalidResult
  | ObjOk
  | ValuesOk
deriving DecidableEq

/-- The observable behaviour of one boundary call: either it returns a value
(`ok`), or it panics out of the `extern "C"` function — which aborts the
process — with the given panic message (`fatal`). -/
inductive CallResult (α : Type) where
  | ok (a : α)
  | fatal (msg : String)
deriving DecidableEq

/-- The `to_obj!` macro of the source: a null object pointer stands for the
document root. -/
def to_obj : Option AMobj → AMobj
  | some b => b
  | none => ⟨ObjId.root⟩

/-- The `to_doc!` macro of the source wrapped around a boundary body: a null
document pointer short-circuits to `AMresult::err("Invalid AMdoc pointer")`
without evaluating the body; otherwise the body runs on the pointee. -/
def withDoc (doc : Option AMdoc) (f : AMdoc → Option AMdoc × AMresult) :
    CallResult (Option AMdoc × AMresult) :=
  match doc with
  | none => .ok (none, AMresult.err "Invalid AMdoc pointer")
  | some d => .ok (f d)

/-- The `to_result` helper of the source on a unit-valued engine result:
`Ok(())` becomes `AMresult::Ok`, `Err(e)` becomes `AMresult::Error`;
the (unchanged on failure) document is handed back alongside. -/
def runPut (d : AMdoc) (r : Except String AMdoc) : Option AMdoc × AMresult :=
  match r with
  | .ok d' => (some d', AMresult.Ok)
  | .error e => (some d, AMresult.Error e)

/-- The `to_result` helper of the source on an object-valued engine result:
`Ok(obj_id)` becomes `AMresult::ObjId`, `Err(e)` becomes `AMresult::Error`. -/
def runPutObject (d : AMdoc) (r : Except String (AMdoc × ObjId)) :
    Option AMdoc × AMresult :=
  match r with
  | .ok (d', oid) => (some d', AMresult.ObjId ⟨oid⟩)
  | .error e => (some d, AMresult.Error e)

/-- The `AMcreate` entry point. Modelled from the spec for the missing
`AMdoc::create` / `AutoCommit::new`: a fresh handle owns an empty document
(a root map and nothing else) and a freshly generated actor identifier —
generation is randomized, so the generated identifier is a parameter of the
pure model. -/
def AMcreate (freshActor : ActorId) : AMdoc :=
  { actor := freshActor, objs := [(ObjId.root, ObjData.map [])], nextId := 1 }

/-- The `AMconfig` entry point of the source: only the key `"actor"` is
recognized, and its value must parse as an actor identifier (`set_actor` of
the missing `doc.rs` is modelled as replacing the actor field). -/
def AMconfig (doc : Option AMdoc) (key value : CString) :
    CallResult (Option AMdoc × AMresult) :=
  withDoc doc fun d =>
    match to_str key with
    | "actor" =>
      match parseActorId (to_str value) with
      | some a => (some { d with actor := a }, AMresult.Ok)
      | none =>
        (some d, AMresult.err ("Invalid actor '" ++ to_str value ++ "'"))
    | k => (some d, AMresult.err ("Invalid config key '" ++ k ++ "'"))

/-- The `AMgetActor` entry point of the source: `unimplemented!()` — a panic
that aborts at the boundary. -/
def AMgetActor (_doc : Option AMdoc) : CallResult AMresult :=
  .fatal "not implemented"

/-- The `AMresultStatus` entry point of the source: the status tag of the
active `AMresult` variant, with null mapped to `InvalidResult`. -/
def AMresultStatus (result : Option AMresult) : AmStatus :=
  match result with
  | some AMresult.Ok => .CommandOk
  | some (AMresult.Error _) => .Error
  | some (AMresult.ObjId _) => .ObjOk
  | some (AMresult.Values _) => .ValuesOk
  | some (AMresult.Changes _) => .ChangesOk
  | none => .InvalidResult

/-- The `AMmapSetInt` entry point of the source. -/
def AMmapSetInt (doc : Option AMdoc) (obj : Option AMobj) (key : CString)
    (value : Int) : CallResult (Option AMdoc × AMresult) :=
  withDoc doc fun d =>
    runPut d (d.mapPut (to_obj obj).id (to_str key) (.Int value))

/-- The `AMmapSetUint` entry point of the source. -/
def AMmapSetUint (doc : Option AMdoc) (obj : Option AMobj) (key : CString)
    (value : Nat) : CallResult (Option AMdoc × AMresult) :=
  withDoc doc fun d =>
    runPut d (d.mapPut (to_obj obj).id (to_str key) (.Uint value))

/-- The `AMmapSetStr` entry point of the source: both the key and the value
go through the lossy `to_str`. -/
def AMmapSetStr (doc : Option AMdoc) (obj : Option AMobj)
    (key value : CString) : CallResult (Option AMdoc × AMresult) :=
  withDoc doc fun d =>
    runPut d (d.mapPut (to_obj obj).id (to_str key) (.Str (to_str value)))

/-- The `AMmapSetBytes` entry point of the source: the stored value is the
`count`-byte slice starting at `value`. -/
def AMmapSetBytes (doc : Option AMdoc) (obj : Option AMobj) (key : CString)
    (value : List Nat) (count : Nat) : CallResult (Option AMdoc × AMresult) :=
  withDoc doc fun d =>
    runPut d (d.mapPut (to_obj obj).id (to_str key) (.Bytes (value.take count)))

/-- The `AMmapSetF64` entry point of the source (the float is carried as its
64-bit pattern). -/
def AMmapSetF64 (doc : Option AMdoc) (obj : Option AMobj) (key : CString)
    (value : F64Bits) : CallResult (Option AMdoc × AMresult) :=
  withDoc doc fun d =>
    runPut d (d.mapPut (to_obj obj).id (to_str key) (.F64 value))

/-- The `AMmapSetCounter` entry point of the source
(`ScalarValue::Counter(value.into())`). -/
def AMmapSetCounter (doc : Option AMdoc) (obj : Option AMobj) (key : CString)
    (value : Int) : CallResult (Option AMdoc × AMresult) :=
  withDoc doc fun d =>
    runPut d (d.mapPut (to_obj obj).id (to_str key) (.Counter value))

/-- The `AMmapSetTimestamp` entry point of the source
(`ScalarValue::Timestamp(value)`). -/
def AMmapSetTimestamp (doc : Option AMdoc) (obj : Option AMobj)
    (key : CString) (value : Int) : CallResult (Option AMdoc × AMresult) :=
  withDoc doc fun d =>
    runPut d (d.mapPut (to_obj obj).id (to_str key) (.Timestamp value))

/-- The `AMmapSetNull` entry point of the source. -/
def AMmapSetNull (doc : Option AMdoc) (obj : Option AMobj) (key : CString) :
    CallResult (Option AMdoc × AMresult) :=
  withDoc doc fun d =>
    runPut d (d.mapPut (to_obj obj).id (to_str key) .Null)

/-- The `AMmapSetObject` entry point of the source: `put_object` with the
requested container kind; the fresh object reference rides in the result. -/
def AMmapSetObject (doc : Option AMdoc) (obj : Option AMobj) (key : CString)
    (obj_type : AmObjType) : CallResult (Option AMdoc × AMresult) :=
  withDoc doc fun d =>
    runPutObject d
      (d.mapPutObject (to_obj obj).id (to_str key) obj_type.toObjType)

/-- The `AMlistSetBytes` entry point of the source. -/
def AMlistSetBytes (doc : Option AMdoc) (obj : Option AMobj) (index : Nat)
    (insert : Bool) (value : List Nat) (count : Nat) :
    CallResult (Option AMdoc × AMresult) :=
  withDoc doc fun d =>
    let v : AmValue := .Bytes (value.take count)
    runPut d (if insert then d.seqInsert (to_obj obj).id index v
              else d.seqPut (to_obj obj).id index v)

/-- The `AMlistSetCounter` entry point of the source. -/
def AMlistSetCounter (doc : Option AMdoc) (obj : Option AMobj) (index : Nat)
    (insert : Bool) (value : Int) : CallResult (Option AMdoc × AMresult) :=
  withDoc doc fun d =>
    let v : AmValue := .Counter value
    runPut d (if insert then d.seqInsert (to_obj obj).id index v
              else d.seqPut (to_obj obj).id index v)

/-- The `AMlistSetF64` entry point of the source. -/
def AMlistSetF64 (doc : Option AMdoc) (obj : Option AMobj) (index : Nat)
    (insert : Bool) (value : F64Bits) : CallResult (Option AMdoc × AMresult) :=
  withDoc doc fun d =>
    let v : AmValue := .F64 value
    runPut d (if insert then d.seqInsert (to_obj obj).id index v
              else d.seqPut (to_obj obj).id index v)

/-- The `AMlistSetInt` entry point of the source. -/
def AMlistSetInt (doc : Option AMdoc) (obj : Option AMobj) (index : Nat)
    (insert : Bool) (value : Int) : CallResult (Option AMdoc × AMresult) :=
  withDoc doc fun d =>
    let v : AmValue := .Int value
    runPut d (if insert then d.seqInsert (to_obj obj).id index v
              else d.seqPut (to_obj obj).id index v)

/-- The `AMlistSetNull` entry point of the source. -/
def AMlistSetNull (doc : Option AMdoc) (obj : Option AMobj) (index : Nat)
    (insert : Bool) : CallResult (Option AMdoc × AMresult) :=
  withDoc doc fun d =>
    let v : AmValue := .Null
    runPut d (if insert then d.seqInsert (to_obj obj).id index v
              else d.seqPut (to_obj obj).id index v)

/-- The `AMlistSetObject` entry point of the source: `insert_object` or
`put_object` with the requested container kind. -/
def AMlistSetObject (doc : Option AMdoc) (obj : Option AMobj) (index : Nat)
    (insert : Bool) (obj_type : AmObjType) :
    CallResult (Option AMdoc × AMresult) :=
  withDoc doc fun d =>
    let t := obj_type.toObjType
    runPutObject d (if insert then d.seqInsertObject (to_obj obj).id index t
                    else d.seqPutObject (to_obj obj).id index t)

/-- The `AMlistSetStr` entry point of the source. -/
def AMlistSetStr (doc : Option AMdoc) (obj : Option AMobj) (index : Nat)
    (insert : Bool) (value : CString) : CallResult (Option AMdoc × AMresult) :=
  withDoc doc fun d =>
    let v : AmValue := .Str (to_str value)
    runPut d (if insert then d.seqInsert (to_obj obj).id index v
              else d.seqPut (to_obj obj).id index v)

/-- The `AMlistSetTimestamp` entry point of the source. -/
def AMlistSetTimestamp (doc : Option AMdoc) (obj : Option AMobj) (index : Nat)
    (insert : Bool) (value : Int) : CallResult (Option AMdoc × AMresult) :=
  withDoc doc fun d =>
    let v : AmValue := .Timestamp value
    runPut d (if insert then d.seqInsert (to_obj obj).id index v
              else d.seqPut (to_obj obj).id index v)

/-- The `AMlistSetUint` entry point of the source. -/
def AMlistSetUint (doc : Option AMdoc) (obj : Option AMobj) (index : Nat)
    (insert : Bool) (value : Nat) : CallResult (Option AMdoc × AMresult) :=
  withDoc doc fun d =>
    let v : AmValue := .Uint value
    runPut d (if insert then d.seqInsert (to_obj obj).id index v
              else d.seqPut (to_obj obj).id index v)

/-- The `AMgetObj` entry point of the source: `unimplemented!()` — a panic
that aborts at the boundary. -/
def AMgetObj (_result : Option AMresult) : CallResult (Option AMobj) :=
  .fatal "not implemented"

/-- The `AMerrorMessage` entry point of the source: the stored message of an
`Error` result, and the null string for every other (or null) result. -/
def AMerrorMessage (result : Option AMresult) : Option String :=
  match result with
  | some (AMresult.Error s) => some s
  | _ => none

/-- The heap of live document handles: slot `h` is the pointee of handle `h`.
`AMdup` and the frame property of duplication are stated over this store,
since they are about which pointee a call may touch. -/
abbrev Store := List AMdoc

/-- The `AMdup` entry point of the source: clone the pointee of `h` into a
freshly allocated handle (the next free slot) and return the new handle;
the original slot is untouched (`mem::forget` keeps it alive). -/
def AMdup (st : Store) (h : Nat) : Store × Nat :=
  match st.get? h with
  | some d => (st ++ [d], st.length)
  | none => (st, st.length)

/-- One mutation call at the boundary, with all of its non-handle arguments:
one constructor per document-mutating entry point of the source. -/
inductive MutCall where
  | config (key value : CString)
  | mapSetInt (obj : Option AMobj) (key : CString) (value : Int)
  | mapSetUint (obj : Option AMobj) (key : CString) (value : Nat)
  | mapSetStr (obj : Option AMobj) (key value : CString)
  | mapSetBytes (obj : Option AMobj) (key : CString) (value : List Nat) (count : Nat)
  | mapSetF64 (obj : Option AMobj) (key : CString) (value : F64Bits)
  | mapSetCounter (obj : Option AMobj) (key : CString) (value : Int)
  | mapSetTimestamp (obj : Option AMobj) (key : CString) (value : Int)
  | mapSetNull (obj : Option AMobj) (key : CString)
  | mapSetObject (obj : Option AMobj) (key : CString) (t : AmObjType)
  | listSetBytes (obj : Option AMobj) (index : Nat) (ins : Bool) (value : List Nat) (count : Nat)
  | listSetCounter (obj : Option AMobj) (index : Nat) (ins : Bool) (value : Int)
  | listSetF64 (obj : Option AMobj) (index : Nat) (ins : Bool) (value : F64Bits)
  | listSetInt (obj : Option AMobj) (index : Nat) (ins : Bool) (value : Int)
  | listSetNull (obj : Option AMobj) (index : Nat) (ins : Bool)
  | listSetObject (obj : Option AMobj) (index : Nat) (ins : Bool) (t : AmObjType)
  | listSetStr (obj : Option AMobj) (index : Nat) (ins : Bool) (value : CString)
  | listSetTimestamp (obj : Option AMobj) (index : Nat) (ins : Bool) (value : Int)
  | listSetUint (obj : Option AMobj) (index : Nat) (ins : Bool) (value : Nat)

/-- Dispatch one mutation call to its boundary entry point, on the pointee of
a valid (non-null) handle. -/
def runCall (d : AMdoc) : MutCall → CallResult (Option AMdoc × AMresult)
  | .config k v => AMconfig (some d) k v
  | .mapSetInt o k v => AMmapSetInt (some d) o k v
  | .mapSetUint o k v => AMmapSetUint (some d) o k v
  | .mapSetStr o k v => AMmapSetStr (some d) o k v
  | .mapSetBytes o k v c => AMmapSetBytes (some d) o k v c
  | .mapSetF64 o k v => AMmapSetF64 (some d) o k v
  | .mapSetCounter o k v => AMmapSetCounter (some d) o k v
  | .mapSetTimestamp o k v => AMmapSetTimestamp (some d) o k v
  | .mapSetNull o k => AMmapSetNull (some d) o k
  | .mapSetObject o k t => AMmapSetObject (some d) o k t
  | .listSetBytes o i ins v c => AMlistSetBytes (some d) o i ins v c
  | .listSetCounter o i ins v => AMlistSetCounter (some d) o i ins v
  | .listSetF64 o i ins v => AMlistSetF64 (some d) o i ins v
  | .listSetInt o i ins v => AMlistSetInt (some d) o i ins v
  | .listSetNull o i ins => AMlistSetNull (some d) o i ins
  | .listSetObject o i ins t => AMlistSetObject (some d) o i ins t
  | .listSetStr o i ins v => AMlistSetStr (some d) o i ins v
  | .listSetTimestamp o i ins v => AMlistSetTimestamp (some d) o i ins v
  | .listSetUint o i ins v => AMlistSetUint (some d) o i ins v

/-- The pointee of the mutated handle after one boundary call (the pointee is
unchanged when the call fails). -/
def applyCall (d : AMdoc) (c : MutCall) : AMdoc :=
  match runCall d c with
  | .ok (some d', _) => d'
  | _ => d

/-- Run one mutation call through handle `h` of the store: only slot `h` can
change, because the call receives only the pointee of `h`. -/
def applyAt : Store → Nat → MutCall → Store
  | [], _, _ => []
  | d :: rest, 0, c => applyCall d c :: rest
  | d :: rest, h + 1, c => d :: applyAt rest h c

/-- Run a sequence of mutation calls through handle `h` of the store. -/
def applyCalls (st : Store) (h : Nat) : List MutCall → Store
  | [] => st
  | c :: cs => applyCalls (applyAt st h c) h cs

theorem lookupObj_setObjEntries_self (objs : List (ObjId × ObjData)) (o : ObjId)
    (dat : ObjData) (x : ObjData) (h : lookupObj objs o = some x) :
    lookupObj (setObjEntries objs o dat) o = some dat := by
  induction objs with
  | nil => simp [lookupObj] at h
  | cons e rest ih =>
    obtain ⟨o', dat'⟩ := e
    by_cases ho : o' = o
    · subst ho
      simp [lookupObj, setObjEntries]
    · simp [lookupObj, setObjEntries, ho] at h ⊢
      exact ih h

theorem lookupObj_append_left (A B : List (ObjId × ObjData)) (o : ObjId)
    (x : ObjData) (h : lookupObj A o = some x) :
    lookupObj (A ++ B) o = some x := by
  induction A with
  | nil => simp [lookupObj] at h
  | cons e rest ih =>
    obtain ⟨o', dat'⟩ := e
    by_cases ho : o' = o
    · subst ho
      simp [lookupObj] at h ⊢
      exact h
    · simp [lookupObj, ho] at h ⊢
      exact ih h

theorem getObj_setObj_self (d : AMdoc) (o : ObjId) (dat : ObjData)
    (x : ObjData) (h : d.getObj o = some x) :
    (d.setObj o dat).getObj o = some dat :=
  lookupObj_setObjEntries_self d.objs o dat x h

theorem mapFind_mapSet_self (es : List (String × AmValue)) (k : String)
    (v : AmValue) : mapFind (mapSet es k v) k = some v := by
  induction es with
  | nil => simp [mapSet, mapFind]
  | cons e rest ih =>
    obtain ⟨k', v'⟩ := e
    by_cases hk : k' = k
    · subst hk
      simp [mapSet, mapFind]
    · simp [mapSet, mapFind, hk]
      exact ih

theorem length_insertAt (l : List AmValue) (i : Nat) (v : AmValue)
    (h : i ≤ l.length) : (insertAt l i v).length = l.length + 1 := by
  simp [insertAt]
  omega

theorem get?_insertAt_self (l : List AmValue) (i : Nat) (v : AmValue)
    (h : i ≤ l.length) : (insertAt l i v).get? i = some v := by
  induction l generalizing i with
  | nil =>
    simp only [List.length_nil, Nat.le_zero] at h
    subst h
    simp [insertAt]
  | cons a rest ih =>
    match i with
    | 0 => simp [insertAt]
    | j + 1 =>
      simp only [List.length_cons] at h
      have := ih j (by omega)
      simpa [insertAt] using this

theorem get?_set_self (l : List AmValue) (i : Nat) (v : AmValue)
    (h : i < l.length) : (l.set i v).get? i = some v := by
  induction l generalizing i with
  | nil => simp at h
  | cons a rest ih =>
    match i with
    | 0 => simp
    | j + 1 =>
      simp only [List.length_cons] at h
      simpa using ih j (by omega)

theorem mapPut_eq (d : AMdoc) (o : ObjId) (k : String) (v : AmValue)
    (es : List (String × AmValue)) (hobj : d.getObj o = some (.map es)) :
    d.mapPut o k v = .ok (d.setObj o (.map (mapSet es k v))) := by
  simp [AMdoc.mapPut, hobj]

theorem seqPut_eq (d : AMdoc) (o : ObjId) (i : Nat) (v : AmValue)
    (l : List AmValue) (hobj : d.getObj o = some (.list l))
    (hi : i < l.length) :
    d.seqPut o i v = .ok (d.setObj o (.list (l.set i v))) := by
  simp [AMdoc.seqPut, hobj, hi]

theorem seqInsert_eq (d : AMdoc) (o : ObjId) (i : Nat) (v : AmValue)
    (l : List AmValue) (hobj : d.getObj o = some (.list l))
    (hi : i ≤ l.length) :
    d.seqInsert o i v = .ok (d.setObj o (.list (insertAt l i v))) := by
  simp [AMdoc.seqInsert, hobj, hi]

/-- Success of a list-insert boundary call: the call returned a success
Outcome, the target list grew by one, and the new element sits at the
requested index. -/
def insertOutcome (res : CallResult (Option AMdoc × AMresult)) (o : ObjId)
    (n i : Nat) (v : AmValue) : Prop :=
  ∃ d', res = .ok (some d', AMresult.Ok) ∧
    ∃ l', d'.getObj o = some (.list l') ∧
      l'.length = n + 1 ∧ l'.get? i = some v

/-- Success of a list-overwrite boundary call: the call returned a success
Outcome, the target list kept its length, and the written value sits at the
requested index. -/
def putOutcome (res : CallResult (Option AMdoc × AMresult)) (o : ObjId)
    (n i : Nat) (v : AmValue) : Prop :=
  ∃ d', res = .ok (some d', AMresult.Ok) ∧
    ∃ l', d'.getObj o = some (.list l') ∧
      l'.length = n ∧ l'.get? i = some v

/-- Success of a list-object boundary call: the call returned the fresh
object reference, and a reference to it sits at the requested index of the
target list, whose length is `n'`. -/
def objectOutcome (res : CallResult (Option AMdoc × AMresult)) (o : ObjId)
    (n' i : Nat) : Prop :=
  ∃ d' oid, res = .ok (some d', AMresult.ObjId ⟨oid⟩) ∧
    ∃ l', d'.getObj o = some (.list l') ∧
      l'.length = n' ∧ l'.get? i = some (.ObjRef oid)

theorem insertOutcome_of (d : AMdoc) (o : ObjId) (l : List AmValue) (i : Nat)
    (v : AmValue) (hobj : d.getObj o = some (.list l)) (hi : i ≤ l.length) :
    insertOutcome (.ok (runPut d (d.seqInsert o i v))) o l.length i v := by
  refine ⟨d.setObj o (.list (insertAt l i v)), ?_, insertAt l i v, ?_, ?_, ?_⟩
  · rw [seqInsert_eq d o i v l hobj hi]
    rfl
  · exact getObj_setObj_self d o _ _ hobj
  · exact length_insertAt l i v hi
  · exact get?_insertAt_self l i v hi

theorem putOutcome_of (d : AMdoc) (o : ObjId) (l : List AmValue) (i : Nat)
    (v : AmValue) (hobj : d.getObj o = some (.list l)) (hi : i < l.length) :
    putOutcome (.ok (runPut d (d.seqPut o i v))) o l.length i v := by
  refine ⟨d.setObj o (.list (l.set i v)), ?_, l.set i v, ?_, ?_, ?_⟩
  · rw [seqPut_eq d o i v l hobj hi]
    rfl
  · exact getObj_setObj_self d o _ _ hobj
  · exact List.length_set l i v
  · exact get?_set_self l i v hi

theorem insertObjectOutcome_of (d : AMdoc) (o : ObjId) (l : List AmValue)
    (i : Nat) (t : ObjType) (hobj : d.getObj o = some (.list l))
    (hi : i ≤ l.length) :
    objectOutcome (.ok (runPutObject d (d.seqInsertObject o i t))) o
      (l.length + 1) i := by
  refine ⟨{ d with
      objs := setObjEntries d.objs o (.list (insertAt l i (.ObjRef d.nextId)))
        ++ [(d.nextId, ObjData.empty t)],
      nextId := d.nextId + 1 }, d.nextId, ?_,
    insertAt l i (.ObjRef d.nextId), ?_, ?_, ?_⟩
  · simp [AMdoc.seqInsertObject, hobj, hi, runPutObject]
  · exact lookupObj_append_left _ _ o _
      (lookupObj_setObjEntries_self d.objs o _ _ hobj)
  · exact length_insertAt l i _ hi
  · exact get?_insertAt_self l i _ hi

theorem putObjectOutcome_of (d : AMdoc) (o : ObjId) (l : List AmValue)
    (i : Nat) (t : ObjType) (hobj : d.getObj o = some (.list l))
    (hi : i < l.length) :
    objectOutcome (.ok (runPutObject d (d.seqPutObject o i t))) o
      l.length i := by
  refine ⟨{ d with
      objs := setObjEntries d.objs o (.list (l.set i (.ObjRef d.nextId)))
        ++ [(d.nextId, ObjData.empty t)],
      nextId := d.nextId + 1 }, d.nextId, ?_,
    l.set i (.ObjRef d.nextId), ?_, ?_, ?_⟩
  · simp [AMdoc.seqPutObject, hobj, hi, runPutObject]
  · exact lookupObj_append_left _ _ o _
      (lookupObj_setObjEntries_self d.objs o _ _ hobj)
  · exact List.length_set l i _
  · exact get?_set_self l i _ hi

theorem mapRoundTrip_of (d : AMdoc) (o : ObjId) (es : List (String × AmValue))
    (k : String) (v : AmValue) (hobj : d.getObj o = some (.map es)) :
    ∃ d', (.ok (runPut d (d.mapPut o k v)) :
        CallResult (Option AMdoc × AMresult)) = .ok (some d', AMresult.Ok) ∧
      d'.mapGet o k = some v := by
  refine ⟨d.setObj o (.map (mapSet es k v)), ?_, ?_⟩
  · rw [mapPut_eq d o k v es hobj]
    rfl
  · unfold AMdoc.mapGet
    rw [getObj_setObj_self d o _ _ hobj]
    exact mapFind_mapSet_self es k v

theorem get?_append_lt (A B : Store) (n : Nat) (h : n < A.length) :
    (A ++ B).get? n = A.get? n := by
  induction A generalizing n with
  | nil => simp at h
  | cons a rest ih =>
    match n with
    | 0 => simp
    | j + 1 =>
      simp only [List.length_cons] at h
      simpa using ih j (by omega)

theorem get?_append_length (A : Store) (d : AMdoc) :
    (A ++ [d]).get? A.length = some d := by
  induction A with
  | nil => simp
  | cons a rest ih => simp [ih]

theorem get?_applyAt_ne (st : Store) (h h1 : Nat) (c : MutCall)
    (hne : h1 ≠ h) : (applyAt st h c).get? h1 = st.get? h1 := by
  induction st generalizing h h1 with
  | nil => simp [applyAt]
  | cons d rest ih =>
    match h, h1 with
    | 0, 0 => exact absurd rfl hne
    | 0, j + 1 => simp [applyAt]
    | k + 1, 0 => simp [applyAt]
    | k + 1, j + 1 =>
      simpa [applyAt] using ih k j (by omega)

theorem get?_applyCalls_ne (calls : List MutCall) (st : Store) (h h1 : Nat)
    (hne : h1 ≠ h) : (applyCalls st h calls).get? h1 = st.get? h1 := by
  induction calls generalizing st with
  | nil => rfl
  | cons c cs ih =>
    calc (applyCalls (applyAt st h c) h cs).get? h1
        = (applyAt st h c).get? h1 := ih (applyAt st h c)
      _ = st.get? h1 := get?_applyAt_ne st h h1 c hne

theorem mapGet_after_put (d : AMdoc) (o : ObjId) (es : List (String × AmValue))
    (k : String) (v : AmValue) (hobj : d.getObj o = some (.map es)) :
    (d.setObj o (.map (mapSet es k v))).mapGet o k = some v := by
  simp [AMdoc.mapGet, getObj_setObj_self d o _ _ hobj, mapFind_mapSet_self]

/-- C1: every boundary operation that takes a document handle (`AMconfig` and
all nine map-mutation and nine list-mutation entry points) maps a null handle
to the error Outcome with message exactly "Invalid AMdoc pointer", with the
(null) pointee untouched and no document state read or modified. -/
theorem null_doc_pointer_error :
    (∀ k v, AMconfig none k v =
      .ok (none, AMresult.Error "Invalid AMdoc pointer")) ∧
    (∀ o k v, AMmapSetInt none o k v =
      .ok (none, AMresult.Error "Invalid AMdoc pointer")) ∧
    (∀ o k v, AMmapSetUint none o k v =
      .ok (none, AMresult.Error "Invalid AMdoc pointer")) ∧
    (∀ o k v, AMmapSetStr none o k v =
      .ok (none, AMresult.Error "Invalid AMdoc pointer")) ∧
    (∀ o k v c, AMmapSetBytes none o k v c =
      .ok (none, AMresult.Error "Invalid AMdoc pointer")) ∧
    (∀ o k v, AMmapSetF64 none o k v =
      .ok (none, AMresult.Error "Invalid AMdoc pointer")) ∧
    (∀ o k v, AMmapSetCounter none o k v =
      .ok (none, AMresult.Error "Invalid AMdoc pointer")) ∧
    (∀ o k v, AMmapSetTimestamp none o k v =
      .ok (none, AMresult.Error "Invalid AMdoc pointer")) ∧
    (∀ o k, AMmapSetNull none o k =
      .ok (none, AMresult.Error "Invalid AMdoc pointer")) ∧
    (∀ o k t, AMmapSetObject none o k t =
      .ok (none, AMresult.Error "Invalid AMdoc pointer")) ∧
    (∀ o i ins v c, AMlistSetBytes none o i ins v c =
      .ok (none, AMresult.Error "Invalid AMdoc pointer")) ∧
    (∀ o i ins v, AMlistSetCounter none o i ins v =
      .ok (none, AMresult.Error "Invalid AMdoc pointer")) ∧
    (∀ o i ins v, AMlistSetF64 none o i ins v =
      .ok (none, AMresult.Error "Invalid AMdoc pointer")) ∧
    (∀ o i ins v, AMlistSetInt none o i ins v =
      .ok (none, AMresult.Error "Invalid AMdoc pointer")) ∧
    (∀ o i ins, AMlistSetNull none o i ins =
      .ok (none, AMresult.Error "Invalid AMdoc pointer")) ∧
    (∀ o i ins t, AMlistSetObject none o i ins t =
      .ok (none, AMresult.Error "Invalid AMdoc pointer")) ∧
    (∀ o i ins v, AMlistSetStr none o i ins v =
      .ok (none, AMresult.Error "Invalid AMdoc pointer")) ∧
    (∀ o i ins v, AMlistSetTimestamp none o i ins v =
      .ok (none, AMresult.Error "Invalid AMdoc pointer")) ∧
    (∀ o i ins v, AMlistSetUint none o i ins v =
      .ok (none, AMresult.Error "Invalid AMdoc pointer")) :=
  ⟨fun _ _ => rfl, fun _ _ _ => rfl, fun _ _ _ => rfl, fun _ _ _ => rfl,
   fun _ _ _ _ => rfl, fun _ _ _ => rfl, fun _ _ _ => rfl, fun _ _ _ => rfl,
   fun _ _ => rfl, fun _ _ _ => rfl, fun _ _ _ _ _ => rfl,
   fun _ _ _ _ => rfl, fun _ _ _ _ => rfl, fun _ _ _ _ => rfl,
   fun _ _ _ => rfl, fun _ _ _ _ => rfl, fun _ _ _ _ => rfl,
   fun _ _ _ _ => rfl, fun _ _ _ _ => rfl⟩

/-- C2 counterexample: the placeholder entry points `AMgetActor` and
`AMgetObj` do abort at runtime — `unimplemented!()` panics out of an
`extern "C"` function — on concrete, perfectly valid inputs, instead of
returning an error Outcome. -/
theorem unimplemented_aborts_counterexample :
    AMgetActor (some (AMcreate [])) = CallResult.fatal "not implemented" ∧
    AMgetObj (some AMresult.Ok) = CallResult.fatal "not implemented" :=
  ⟨rfl, rfl⟩

/-- C2 amended: every implemented boundary entry point returns a value (an
Outcome, for the document operations) on every input and never panics, while
the two unfinished placeholder entry points `AMgetActor` and `AMgetObj`
deterministically abort (panic with "not implemented") on every input rather
than returning an Outcome. -/
theorem boundary_totality_amended :
    (∀ d, AMgetActor d = CallResult.fatal "not implemented") ∧
    (∀ r, AMgetObj r = CallResult.fatal "not implemented") ∧
    (∀ doc k v, ∃ out, AMconfig doc k v = CallResult.ok out) ∧
    (∀ doc o k v, ∃ out, AMmapSetInt doc o k v = CallResult.ok out) ∧
    (∀ doc o k v, ∃ out, AMmapSetUint doc o k v = CallResult.ok out) ∧
    (∀ doc o k v, ∃ out, AMmapSetStr doc o k v = CallResult.ok out) ∧
    (∀ doc o k v c, ∃ out, AMmapSetBytes doc o k v c = CallResult.ok out) ∧
    (∀ doc o k v, ∃ out, AMmapSetF64 doc o k v = CallResult.ok out) ∧
    (∀ doc o k v, ∃ out, AMmapSetCounter doc o k v = CallResult.ok out) ∧
    (∀ doc o k v, ∃ out, AMmapSetTimestamp doc o k v = CallResult.ok out) ∧
    (∀ doc o k, ∃ out, AMmapSetNull doc o k = CallResult.ok out) ∧
    (∀ doc o k t, ∃ out, AMmapSetObject doc o k t = CallResult.ok out) ∧
    (∀ doc o i ins v c, ∃ out, AMlistSetBytes doc o i ins v c = CallResult.ok out) ∧
    (∀ doc o i ins v, ∃ out, AMlistSetCounter doc o i ins v = CallResult.ok out) ∧
    (∀ doc o i ins v, ∃ out, AMlistSetF64 doc o i ins v = CallResult.ok out) ∧
    (∀ doc o i ins v, ∃ out, AMlistSetInt doc o i ins v = CallResult.ok out) ∧
    (∀ doc o i ins, ∃ out, AMlistSetNull doc o i ins = CallResult.ok out) ∧
    (∀ doc o i ins t, ∃ out, AMlistSetObject doc o i ins t = CallResult.ok out) ∧
    (∀ doc o i ins v, ∃ out, AMlistSetStr doc o i ins v = CallResult.ok out) ∧
    (∀ doc o i ins v, ∃ out, AMlistSetTimestamp doc o i ins v = CallResult.ok out) ∧
    (∀ doc o i ins v, ∃ out, AMlistSetUint doc o i ins v = CallResult.ok out) := by
  refine ⟨fun _ => rfl, fun _ => rfl, ?_, ?_, ?_, ?_, ?_, ?_, ?_, ?_, ?_, ?_,
    ?_, ?_, ?_, ?_, ?_, ?_, ?_, ?_, ?_⟩ <;>
    intro doc <;> cases doc <;> intros <;> exact ⟨_, rfl⟩

/-- C5: for every mutation entry point taking an object-reference argument,
passing a null object reference is definitionally the same call as passing a
reference to the document root: the null reference is treated as the root,
never as an error. -/
theorem null_obj_means_root :
    (∀ d k v, AMmapSetInt d none k v = AMmapSetInt d (some ⟨ObjId.root⟩) k v) ∧
    (∀ d k v, AMmapSetUint d none k v = AMmapSetUint d (some ⟨ObjId.root⟩) k v) ∧
    (∀ d k v, AMmapSetStr d none k v = AMmapSetStr d (some ⟨ObjId.root⟩) k v) ∧
    (∀ d k v c, AMmapSetBytes d none k v c = AMmapSetBytes d (some ⟨ObjId.root⟩) k v c) ∧
    (∀ d k v, AMmapSetF64 d none k v = AMmapSetF64 d (some ⟨ObjId.root⟩) k v) ∧
    (∀ d k v, AMmapSetCounter d none k v = AMmapSetCounter d (some ⟨ObjId.root⟩) k v) ∧
    (∀ d k v, AMmapSetTimestamp d none k v = AMmapSetTimestamp d (some ⟨ObjId.root⟩) k v) ∧
    (∀ d k, AMmapSetNull d none k = AMmapSetNull d (some ⟨ObjId.root⟩) k) ∧
    (∀ d k t, AMmapSetObject d none k t = AMmapSetObject d (some ⟨ObjId.root⟩) k t) ∧
    (∀ d i ins v c, AMlistSetBytes d none i ins v c = AMlistSetBytes d (some ⟨ObjId.root⟩) i ins v c) ∧
    (∀ d i ins v, AMlistSetCounter d none i ins v = AMlistSetCounter d (some ⟨ObjId.root⟩) i ins v) ∧
    (∀ d i ins v, AMlistSetF64 d none i ins v = AMlistSetF64 d (some ⟨ObjId.root⟩) i ins v) ∧
    (∀ d i ins v, AMlistSetInt d none i ins v = AMlistSetInt d (some ⟨ObjId.root⟩) i ins v) ∧
    (∀ d i ins, AMlistSetNull d none i ins = AMlistSetNull d (some ⟨ObjId.root⟩) i ins) ∧
    (∀ d i ins t, AMlistSetObject d none i ins t = AMlistSetObject d (some ⟨ObjId.root⟩) i ins t) ∧
    (∀ d i ins v, AMlistSetStr d none i ins v = AMlistSetStr d (some ⟨ObjId.root⟩) i ins v) ∧
    (∀ d i ins v, AMlistSetTimestamp d none i ins v = AMlistSetTimestamp d (some ⟨ObjId.root⟩) i ins v) ∧
    (∀ d i ins v, AMlistSetUint d none i ins v = AMlistSetUint d (some ⟨ObjId.root⟩) i ins v) :=
  ⟨fun _ _ _ => rfl, fun _ _ _ => rfl, fun _ _ _ => rfl, fun _ _ _ _ => rfl,
   fun _ _ _ => rfl, fun _ _ _ => rfl, fun _ _ _ => rfl, fun _ _ => rfl,
   fun _ _ _ => rfl, fun _ _ _ _ _ => rfl, fun _ _ _ _ => rfl,
   fun _ _ _ _ => rfl, fun _ _ _ _ => rfl, fun _ _ _ => rfl,
   fun _ _ _ _ => rfl, fun _ _ _ _ => rfl, fun _ _ _ _ => rfl,
   fun _ _ _ _ => rfl⟩

/-- C9: the externally visible numeric tags of the object-kind enumeration
are exactly `List = 1`, `Map = 2`, `Text = 3`. -/
theorem obj_type_tags :
    AmObjType.tag .List = 1 ∧ AmObjType.tag .Map = 2 ∧
      AmObjType.tag .Text = 3 :=
  ⟨rfl, rfl, rfl⟩

/-- C3: `AMconfig` on a valid handle succeeds — returning the success Outcome
and installing the parsed actor identifier — exactly when the key is
`"actor"` and the value parses as an actor identifier; an unrecognized key
fails with an error naming the key, a malformed actor value fails with an
error naming the value, and in both failure cases the handle's pointee
(actor identifier and document state) is returned unchanged. -/
theorem config_spec (d : AMdoc) (key value : CString) :
    ((∃ a, parseActorId (to_str value) = some a ∧
        AMconfig (some d) key value =
          .ok (some { d with actor := a }, AMresult.Ok)) ↔
      to_str key = "actor" ∧ (parseActorId (to_str value)).isSome) ∧
    (to_str key ≠ "actor" →
      AMconfig (some d) key value =
        .ok (some d,
          AMresult.Error ("Invalid config key '" ++ to_str key ++ "'"))) ∧
    (to_str key = "actor" → parseActorId (to_str value) = none →
      AMconfig (some d) key value =
        .ok (some d,
          AMresult.Error ("Invalid actor '" ++ to_str value ++ "'"))) := by
  by_cases hk : to_str key = "actor"
  · cases hp : parseActorId (to_str value) with
    | none => simp [AMconfig, withDoc, AMresult.err, hk, hp]
    | some a => simp [AMconfig, withDoc, AMresult.err, hk, hp]
  · simp [AMconfig, withDoc, AMresult.err, hk]

/-- C6: the status accessor returns the status matching the active variant of
the Outcome — command-ok iff success-with-no-value, error iff `Error`,
object-ok iff `ObjId`, values-ok iff `Values`, changes-ok iff `Changes`, and
the distinguished invalid-result status iff the result is null — and
extracting the error message from an Outcome whose variant is not `Error`
yields the null string. -/
theorem result_status_spec (r : Option AMresult) :
    (AMresultStatus r = AmStatus.CommandOk ↔ r = some AMresult.Ok) ∧
    (AMresultStatus r = AmStatus.Error ↔
      ∃ s, r = some (AMresult.Error s)) ∧
    (AMresultStatus r = AmStatus.ObjOk ↔
      ∃ o, r = some (AMresult.ObjId o)) ∧
    (AMresultStatus r = AmStatus.ValuesOk ↔
      ∃ vs, r = some (AMresult.Values vs)) ∧
    (AMresultStatus r = AmStatus.ChangesOk ↔
      ∃ cs, r = some (AMresult.Changes cs)) ∧
    (AMresultStatus r = AmStatus.InvalidResult ↔ r = none) ∧
    (AMresultStatus r ≠ AmStatus.Error → AMerrorMessage r = none) := by
  cases r with
  | none => simp [AMresultStatus, AMerrorMessage]
  | some res => cases res <;> simp [AMresultStatus, AMerrorMessage]

/-- Witness for the hypotheses of `result_status_spec`: a success Outcome has
a non-`Error` status, and its error message is the null string. -/
theorem result_status_spec_witness :
    AMerrorMessage (some AMresult.Ok) = none :=
  (result_status_spec (some AMresult.Ok)).2.2.2.2.2.2 (by decide)

/-- C4: for every list mutation entry point on a valid handle and a list
target: with the insert flag set and `index ≤ length`, the call succeeds, the
list grows by exactly one, and the new element is at the requested index;
with the insert flag clear and `index < length`, the call succeeds, the list
length is unchanged, and the element at the index equals the written value
(for the object entry point, the fresh object reference returned in the
Outcome). -/
theorem list_mutation_spec (d : AMdoc) (o : ObjId) (l : List AmValue)
    (i : Nat) (hobj : d.getObj o = some (.list l)) :
    (i ≤ l.length →
      (∀ v : Int, insertOutcome (AMlistSetInt (some d) (some ⟨o⟩) i true v)
        o l.length i (.Int v)) ∧
      (∀ v : Nat, insertOutcome (AMlistSetUint (some d) (some ⟨o⟩) i true v)
        o l.length i (.Uint v)) ∧
      (∀ v : F64Bits, insertOutcome (AMlistSetF64 (some d) (some ⟨o⟩) i true v)
        o l.length i (.F64 v)) ∧
      (∀ v : Int, insertOutcome (AMlistSetCounter (some d) (some ⟨o⟩) i true v)
        o l.length i (.Counter v)) ∧
      (∀ v : Int, insertOutcome (AMlistSetTimestamp (some d) (some ⟨o⟩) i true v)
        o l.length i (.Timestamp v)) ∧
      insertOutcome (AMlistSetNull (some d) (some ⟨o⟩) i true)
        o l.length i .Null ∧
      (∀ vb : CString, insertOutcome (AMlistSetStr (some d) (some ⟨o⟩) i true vb)
        o l.length i (.Str (to_str vb))) ∧
      (∀ (vb : List Nat) (c : Nat),
        insertOutcome (AMlistSetBytes (some d) (some ⟨o⟩) i true vb c)
          o l.length i (.Bytes (vb.take c))) ∧
      (∀ t : AmObjType,
        objectOutcome (AMlistSetObject (some d) (some ⟨o⟩) i true t)
          o (l.length + 1) i)) ∧
    (i < l.length →
      (∀ v : Int, putOutcome (AMlistSetInt (some d) (some ⟨o⟩) i false v)
        o l.length i (.Int v)) ∧
      (∀ v : Nat, putOutcome (AMlistSetUint (some d) (some ⟨o⟩) i false v)
        o l.length i (.Uint v)) ∧
      (∀ v : F64Bits, putOutcome (AMlistSetF64 (some d) (some ⟨o⟩) i false v)
        o l.length i (.F64 v)) ∧
      (∀ v : Int, putOutcome (AMlistSetCounter (some d) (some ⟨o⟩) i false v)
        o l.length i (.Counter v)) ∧
      (∀ v : Int, putOutcome (AMlistSetTimestamp (some d) (some ⟨o⟩) i false v)
        o l.length i (.Timestamp v)) ∧
      putOutcome (AMlistSetNull (some d) (some ⟨o⟩) i false)
        o l.length i .Null ∧
      (∀ vb : CString, putOutcome (AMlistSetStr (some d) (some ⟨o⟩) i false vb)
        o l.length i (.Str (to_str vb))) ∧
      (∀ (vb : List Nat) (c : Nat),
        putOutcome (AMlistSetBytes (some d) (some ⟨o⟩) i false vb c)
          o l.length i (.Bytes (vb.take c))) ∧
      (∀ t : AmObjType,
        objectOutcome (AMlistSetObject (some d) (some ⟨o⟩) i false t)
          o l.length i)) := by
  constructor
  · intro hi
    exact ⟨fun v => insertOutcome_of d o l i (.Int v) hobj hi,
      fun v => insertOutcome_of d o l i (.Uint v) hobj hi,
      fun v => insertOutcome_of d o l i (.F64 v) hobj hi,
      fun v => insertOutcome_of d o l i (.Counter v) hobj hi,
      fun v => insertOutcome_of d o l i (.Timestamp v) hobj hi,
      insertOutcome_of d o l i .Null hobj hi,
      fun vb => insertOutcome_of d o l i (.Str (to_str vb)) hobj hi,
      fun vb c => insertOutcome_of d o l i (.Bytes (vb.take c)) hobj hi,
      fun t => insertObjectOutcome_of d o l i t.toObjType hobj hi⟩
  · intro hi
    exact ⟨fun v => putOutcome_of d o l i (.Int v) hobj hi,
      fun v => putOutcome_of d o l i (.Uint v) hobj hi,
      fun v => putOutcome_of d o l i (.F64 v) hobj hi,
      fun v => putOutcome_of d o l i (.Counter v) hobj hi,
      fun v => putOutcome_of d o l i (.Timestamp v) hobj hi,
      putOutcome_of d o l i .Null hobj hi,
      fun vb => putOutcome_of d o l i (.Str (to_str vb)) hobj hi,
      fun vb c => putOutcome_of d o l i (.Bytes (vb.take c)) hobj hi,
      fun t => putObjectOutcome_of d o l i t.toObjType hobj hi⟩

/-- A small concrete document used by the witnesses: the root map holds the
key "items" referring to object 1, a one-element list. -/
def sampleDoc : AMdoc :=
  { actor := [],
    objs := [(0, ObjData.map [("items", AmValue.ObjRef 1)]),
             (1, ObjData.list [AmValue.Null])],
    nextId := 2 }

/-- Witness for `list_mutation_spec`: on a concrete one-element list, index 0
satisfies both bounds, an insert succeeds growing the list, and an overwrite
succeeds preserving the length. -/
theorem list_mutation_spec_witness :
    sampleDoc.getObj 1 = some (ObjData.list [AmValue.Null]) ∧
    (0 : Nat) ≤ 1 ∧ (0 : Nat) < 1 ∧
    insertOutcome (AMlistSetInt (some sampleDoc) (some ⟨1⟩) 0 true 7)
      1 1 0 (.Int 7) ∧
    putOutcome (AMlistSetInt (some sampleDoc) (some ⟨1⟩) 0 false 7)
      1 1 0 (.Int 7) :=
  ⟨rfl, by decide, by decide,
    ((list_mutation_spec sampleDoc 1 [AmValue.Null] 0 rfl).1 (by decide)).1 7,
    ((list_mutation_spec sampleDoc 1 [AmValue.Null] 0 rfl).2 (by decide)).1 7⟩

/-- C7: writing a value of each supported kind to a fresh key of a map object
in a valid document and reading the key back yields a value equal to the one
written (booleans, for which the boundary has no map entry point, are checked
against the engine-level put). -/
theorem map_round_trip (d : AMdoc) (o : ObjId) (es : List (String × AmValue))
    (kb : CString) (hobj : d.getObj o = some (.map es))
    (_hfresh : d.mapGet o (to_str kb) = none) :
    (∃ d', AMmapSetNull (some d) (some ⟨o⟩) kb = .ok (some d', AMresult.Ok) ∧
      d'.mapGet o (to_str kb) = some .Null) ∧
    (∀ b : Bool, ∃ d', d.mapPut o (to_str kb) (.Bool b) = Except.ok d' ∧
      d'.mapGet o (to_str kb) = some (.Bool b)) ∧
    (∀ v : Int, ∃ d', AMmapSetInt (some d) (some ⟨o⟩) kb v =
        .ok (some d', AMresult.Ok) ∧
      d'.mapGet o (to_str kb) = some (.Int v)) ∧
    (∀ v : Nat, ∃ d', AMmapSetUint (some d) (some ⟨o⟩) kb v =
        .ok (some d', AMresult.Ok) ∧
      d'.mapGet o (to_str kb) = some (.Uint v)) ∧
    (∀ v : F64Bits, ∃ d', AMmapSetF64 (some d) (some ⟨o⟩) kb v =
        .ok (some d', AMresult.Ok) ∧
      d'.mapGet o (to_str kb) = some (.F64 v)) ∧
    (∀ vb : CString, ∃ d', AMmapSetStr (some d) (some ⟨o⟩) kb vb =
        .ok (some d', AMresult.Ok) ∧
      d'.mapGet o (to_str kb) = some (.Str (to_str vb))) ∧
    (∀ (vb : List Nat) (c : Nat), ∃ d',
      AMmapSetBytes (some d) (some ⟨o⟩) kb vb c =
        .ok (some d', AMresult.Ok) ∧
      d'.mapGet o (to_str kb) = some (.Bytes (vb.take c))) ∧
    (∀ v : Int, ∃ d', AMmapSetCounter (some d) (some ⟨o⟩) kb v =
        .ok (some d', AMresult.Ok) ∧
      d'.mapGet o (to_str kb) = some (.Counter v)) ∧
    (∀ v : Int, ∃ d', AMmapSetTimestamp (some d) (some ⟨o⟩) kb v =
        .ok (some d', AMresult.Ok) ∧
      d'.mapGet o (to_str kb) = some (.Timestamp v)) :=
  ⟨mapRoundTrip_of d o es (to_str kb) .Null hobj,
   fun b => ⟨d.setObj o (.map (mapSet es (to_str kb) (.Bool b))),
     mapPut_eq d o (to_str kb) (.Bool b) es hobj,
     mapGet_after_put d o es (to_str kb) (.Bool b) hobj⟩,
   fun v => mapRoundTrip_of d o es (to_str kb) (.Int v) hobj,
   fun v => mapRoundTrip_of d o es (to_str kb) (.Uint v) hobj,
   fun v => mapRoundTrip_of d o es (to_str kb) (.F64 v) hobj,
   fun vb => mapRoundTrip_of d o es (to_str kb) (.Str (to_str vb)) hobj,
   fun vb c => mapRoundTrip_of d o es (to_str kb) (.Bytes (vb.take c)) hobj,
   fun v => mapRoundTrip_of d o es (to_str kb) (.Counter v) hobj,
   fun v => mapRoundTrip_of d o es (to_str kb) (.Timestamp v) hobj⟩

/-- Witness for `map_round_trip`: the root map of a fresh document, a fresh
key, and a signed-integer round trip. -/
theorem map_round_trip_witness :
    (AMcreate []).getObj 0 = some (ObjData.map []) ∧
    (AMcreate []).mapGet 0 (to_str [107]) = none ∧
    (∃ d', AMmapSetInt (some (AMcreate [])) (some ⟨0⟩) [107] 5 =
        .ok (some d', AMresult.Ok) ∧
      d'.mapGet 0 (to_str [107]) = some (.Int 5)) :=
  ⟨rfl, rfl, (map_round_trip (AMcreate []) 0 [] [107] rfl rfl).2.2.1 5⟩

/-- C3 witness: concrete instances for `config_spec` — the key "actor" with
the hex value "00" succeeds, the key "k" fails naming the key, and the key
"actor" with the non-hex value "z" fails naming the value. -/
theorem config_spec_witness :
    (to_str [97, 99, 116, 111, 114] = "actor" ∧
      (parseActorId (to_str [48, 48])).isSome ∧
      ∃ a, parseActorId (to_str [48, 48]) = some a ∧
        AMconfig (some (AMcreate [])) [97, 99, 116, 111, 114] [48, 48] =
          .ok (some { AMcreate [] with actor := a }, AMresult.Ok)) ∧
    AMconfig (some (AMcreate [])) [107] [48] =
      .ok (some (AMcreate []),
        AMresult.Error ("Invalid config key '" ++ to_str [107] ++ "'")) ∧
    AMconfig (some (AMcreate [])) [97, 99, 116, 111, 114] [122] =
      .ok (some (AMcreate []),
        AMresult.Error ("Invalid actor '" ++ to_str [122] ++ "'")) :=
  ⟨⟨by decide, by decide,
    (config_spec (AMcreate []) [97, 99, 116, 111, 114] [48, 48]).1.2
      ⟨by decide, by decide⟩⟩,
   (config_spec (AMcreate []) [107] [48]).2.1 (by decide),
   (config_spec (AMcreate []) [97, 99, 116, 111, 114] [122]).2.2
     (by decide) (by decide)⟩

/-- C8: duplicating a valid handle allocates a new, independently-owned
handle whose pointee is a copy of the original document state and actor
identity, and any sequence of mutations applied through the duplicate leaves
the pointee read through every original handle — in particular the
duplicated one — unchanged. -/
theorem dup_frame (st : Store) (h : Nat) (d : AMdoc)
    (hd : st.get? h = some d) :
    (AMdup st h).2 = st.length ∧
    (AMdup st h).1.get? (AMdup st h).2 = some d ∧
    (∀ h1, h1 < st.length → (AMdup st h).1.get? h1 = st.get? h1) ∧
    ∀ (calls : List MutCall) (h1 : Nat), h1 < st.length →
      (applyCalls (AMdup st h).1 (AMdup st h).2 calls).get? h1 =
        st.get? h1 := by
  have hdup : AMdup st h = (st ++ [d], st.length) := by
    unfold AMdup
    rw [hd]
  rw [hdup]
  refine ⟨rfl, get?_append_length st d, ?_, ?_⟩
  · intro h1 h1lt
    exact get?_append_lt st [d] h1 h1lt
  · intro calls h1 h1lt
    rw [get?_applyCalls_ne calls (st ++ [d]) st.length h1 (by omega)]
    exact get?_append_lt st [d] h1 h1lt

/-- Witness for `dup_frame`: a one-handle store; after duplication, a map
mutation through the duplicate leaves the original handle's pointee
untouched. -/
theorem dup_frame_witness :
    ([AMcreate []] : Store).get? 0 = some (AMcreate []) ∧ (0 : Nat) < 1 ∧
    (applyCalls (AMdup [AMcreate []] 0).1 (AMdup [AMcreate []] 0).2
        [MutCall.mapSetInt none [107] 5]).get? 0 =
      ([AMcreate []] : Store).get? 0 :=
  ⟨rfl, by decide,
    (dup_frame [AMcreate []] 0 (AMcreate []) rfl).2.2.2
      [MutCall.mapSetInt none [107] 5] 0 (by decide)⟩

/-- C10: a C-string argument that is not valid UTF-8 is never rejected — the
string entry point succeeds on every byte sequence for a valid map target —
and invalid byte sequences are replaced lossily with U+FFFD, so two distinct
invalid byte inputs (0xFF and 0xFE) decode alike and address the same key. -/
theorem lossy_cstring_spec :
    (∀ (d : AMdoc) (o : ObjId) (es : List (String × AmValue)) (kb vb : CString),
      d.getObj o = some (.map es) →
      ∃ d', AMmapSetStr (some d) (some ⟨o⟩) kb vb =
        .ok (some d', AMresult.Ok)) ∧
    to_str [255] = "�" ∧
    to_str [254] = "�" ∧
    ([255] : CString) ≠ [254] ∧
    (∀ (d : AMdoc) (o : ObjId) (es : List (String × AmValue)) (v : Int),
      d.getObj o = some (.map es) →
      ∃ d', AMmapSetInt (some d) (some ⟨o⟩) [255] v =
          .ok (some d', AMresult.Ok) ∧
        d'.mapGet o (to_str [254]) = some (.Int v)) := by
  refine ⟨?_, by decide, by decide, by decide, ?_⟩
  · intro d o es kb vb hobj
    obtain ⟨d', h1, _⟩ :=
      mapRoundTrip_of d o es (to_str kb) (.Str (to_str vb)) hobj
    exact ⟨d', h1⟩
  · intro d o es v hobj
    have heq : to_str [254] = to_str [255] := by decide
    rw [heq]
    exact mapRoundTrip_of d o es (to_str [255]) (.Int v) hobj

/-- Witness for `lossy_cstring_spec`: the invalid byte sequence 0xFF as a map
key is accepted on a fresh document, and the value written under it is read
back under the distinct invalid byte sequence 0xFE. -/
theorem lossy_cstring_spec_witness :
    (AMcreate []).getObj 0 = some (ObjData.map []) ∧
    (∃ d', AMmapSetStr (some (AMcreate [])) (some ⟨0⟩) [255] [254] =
      .ok (some d', AMresult.Ok)) ∧
    (∃ d', AMmapSetInt (some (AMcreate [])) (some ⟨0⟩) [255] 9 =
        .ok (some d', AMresult.Ok) ∧
      d'.mapGet 0 (to_str [254]) = some (.Int 9)) :=
  ⟨rfl, lossy_cstring_spec.1 (AMcreate []) 0 [] [255] [254] rfl,
   lossy_cstring_spec.2.2.2.2 (AMcreate []) 0 [] 9 rfl⟩
